import Mathlib

/-!
Shallow embedding of the Git Object Layer of this repository
(src/buildtool/file_system/git_repo.cpp).

The libgit2 calls that the code makes are modelled as oracle environments:
each environment field records the outcome the library call would produce,
and the embedded functions reproduce the C++ control flow over those
outcomes.  Purely in-process logic (the in-memory ODB backend, the flat
tree walk, the symlink batch collection, the refspec construction, the
keep-tag retry loop) is embedded directly.
-/

namespace GitRepo

/-- Kinds of objects, from ObjectType (file_system/object_type.hpp; the
header is not part of the sources, the enum is reconstructed from its uses
in git_repo.cpp and from the spec's data model: File, Executable, Symlink,
Tree). -/
inductive ObjectType where
  | File
  | Executable
  | Tree
  | Symlink
deriving DecidableEq, Repr

/-- Modelled from the spec: the isTree(kind) predicate of the Object
Identifier component (IsTreeObject in object_type.hpp, not under src/). -/
def IsTreeObject (t : ObjectType) : Bool :=
  match t with
  | .Tree => true
  | _ => false

/-- Modelled from the spec: the isSymlink(kind) predicate of the Object
Identifier component (IsSymlinkObject in object_type.hpp, not under src/). -/
def IsSymlinkObject (t : ObjectType) : Bool :=
  match t with
  | .Symlink => true
  | _ => false

/-- Raw object id: a byte string (in C++ a std::string holding the 20 raw
bytes of a git oid). -/
abbrev RawId := List (Fin 256)

/-- Lowercase hex digit for a value below 16 (digits 0-9 then a-f). -/
def hexChar (n : Nat) : Char :=
  if n < 10 then Char.ofNat (48 + n) else Char.ofNat (87 + n)

/-- Two lowercase hex characters of one byte. -/
def byteToHexChars (b : Nat) : List Char :=
  [hexChar (b / 16), hexChar (b % 16)]

/-- Modelled from the spec: ToHexString of utils/cpp/hex_string.hpp (not
under src/): raw bytes to the 2-characters-per-byte lowercase hex string;
the spec states raw↔hex is bijective and total. -/
def toHexString (id : RawId) : String :=
  ⟨id.flatMap fun b => byteToHexChars b.val⟩

/-- Entry of a flat tree listing: name and kind (GitRepo::TreeEntry). -/
structure TreeEntry where
  name : String
  type : ObjectType
deriving DecidableEq, Repr

/-- Flat tree listing: map raw id → nodes, modelled as an association list
(GitRepo::tree_entries_t, an unordered_map from raw id strings to vectors
of TreeEntry). -/
abbrev tree_entries_t := List (RawId × List TreeEntry)

/-- Association-list lookup, the model of unordered_map::find. -/
def lookupAssoc {α β : Type} [DecidableEq α] : List (α × β) → α → Option β
  | [], _ => none
  | p :: ps, k => if p.1 = k then some p.2 else lookupAssoc ps k

/-- ValidateEntries (git_repo.cpp, lines 119-134): for every raw id of the
listing, either all of its nodes are trees or none of them is. -/
def ValidateEntries (entries : tree_entries_t) : Bool :=
  entries.all fun e =>
    (e.2.all fun n => IsTreeObject n.type) ||
    (e.2.all fun n => !IsTreeObject n.type)

/-! ## In-memory ODB backend (git_repo.cpp, lines 182-289) -/

/-- InMemoryODBBackend state: an optional pointer to an entries map
(object headers) and an owned map of solid tree objects keyed by raw id.
The entries pointer is null (none) unless the caller installed one. -/
structure InMemoryODBBackend where
  entries : Option tree_entries_t
  trees : List (RawId × String)

/-- Git object kinds reported by the backend (git_object_t values used by
the in-memory backend: GIT_OBJECT_TREE and GIT_OBJECT_BLOB). -/
inductive GitObjectKind where
  | tree
  | blob
deriving DecidableEq, Repr

/-- Outcome of backend_read_header: GIT_OK with a kind and length, or
GIT_ENOTFOUND. (The GIT_ERROR branches of the C code concern null argument
pointers and a failing oid formatting, which have no counterpart in the
embedding.) -/
inductive ReadHeaderResult where
  | ok (kind : GitObjectKind) (len : Nat)
  | notFound
deriving DecidableEq, Repr

/-- backend_read_header (git_repo.cpp, lines 188-217): trees map first
(kind tree, length of the stored bytes); else the entries map, whose
non-empty listings report tree/blob after their first node with length 0;
else not found. -/
def backend_read_header (b : InMemoryODBBackend) (id : RawId) : ReadHeaderResult :=
  match lookupAssoc b.trees id with
  | some data => .ok .tree data.length
  | none =>
    match b.entries with
    | none => .notFound
    | some es =>
      match lookupAssoc es id with
      | none => .notFound
      | some [] => .notFound
      | some (n :: _) => .ok (if IsTreeObject n.type then .tree else .blob) 0

/-- Claim C2: read_header of the in-memory ODB backend reports kind Tree
with the stored tree byte length for keys of the trees map; otherwise, for
keys of the entries map with a non-empty listing, kind Tree when the first
listing node is a tree and kind Blob otherwise, with length 0; otherwise
NotFound. -/
theorem claim_C2_read_header_spec (b : InMemoryODBBackend) (id : RawId) :
    (∀ data, lookupAssoc b.trees id = some data →
      backend_read_header b id = .ok .tree data.length) ∧
    (lookupAssoc b.trees id = none →
      (∀ es n ns, b.entries = some es → lookupAssoc es id = some (n :: ns) →
        backend_read_header b id =
          .ok (if IsTreeObject n.type then .tree else .blob) 0) ∧
      (∀ es, b.entries = some es → lookupAssoc es id = some [] →
        backend_read_header b id = .notFound) ∧
      (∀ es, b.entries = some es → lookupAssoc es id = none →
        backend_read_header b id = .notFound) ∧
      (b.entries = none → backend_read_header b id = .notFound)) := by
  refine ⟨fun data h => by simp [backend_read_header, h], fun h => ⟨?_, ?_, ?_, ?_⟩⟩
  · intro es n ns hes hlook
    simp [backend_read_header, h, hes, hlook]
  · intro es hes hlook
    simp [backend_read_header, h, hes, hlook]
  · intro es hes hlook
    simp [backend_read_header, h, hes, hlook]
  · intro hes
    simp [backend_read_header, h, hes]

/-- Concrete in-memory backend used to evaluate the claim C2 theorem: one
stored tree object and one header-only blob entry. -/
def exampleBackend : InMemoryODBBackend :=
  { entries := some [([(37 : Fin 256)], [⟨"a.txt", ObjectType.File⟩])],
    trees := [([(1 : Fin 256)], "tree-bytes")] }

/-- Claim C2, witness: a backend with one stored tree and one header-only
blob entry, evaluated at concrete ids. -/
theorem claim_C2_read_header_spec_witness :
    backend_read_header exampleBackend [(1 : Fin 256)] = .ok .tree 10 ∧
    backend_read_header exampleBackend [(37 : Fin 256)] = .ok .blob 0 ∧
    backend_read_header exampleBackend [(2 : Fin 256)] = .notFound := by
  refine ⟨?_, ?_, ?_⟩
  · exact (claim_C2_read_header_spec exampleBackend [(1 : Fin 256)]).1 "tree-bytes" (by decide)
  · exact ((claim_C2_read_header_spec exampleBackend [(37 : Fin 256)]).2
      (by decide)).1 _ ⟨"a.txt", ObjectType.File⟩ [] rfl (by decide)
  · exact ((claim_C2_read_header_spec exampleBackend [(2 : Fin 256)]).2
      (by decide)).2.2.1 _ rfl (by decide)

/-! ## Flat tree walk (git_repo.cpp, lines 136-180) and ReadTree
(lines 1792-1877) -/

/-- Git file modes as classified by git_repo.cpp: the three non-special
modes (kNonSpecialGitFileModes), the symlink mode, and all other modes
(submodule, unreadable, ...) collapsed into one constructor carrying the
octal mode value. -/
inductive GitFilemode where
  | blob
  | blobExecutable
  | tree
  | link
  | other (mode : Nat)
deriving DecidableEq, Repr

/-- GitFileModeIsNonSpecial (git_repo.cpp, lines 63-66): membership in
kNonSpecialGitFileModes = {BLOB, BLOB_EXECUTABLE, TREE}. -/
def GitFileModeIsNonSpecial (m : GitFilemode) : Bool :=
  match m with
  | .blob => true
  | .blobExecutable => true
  | .tree => true
  | _ => false

/-- GitFileModeToObjectType (git_repo.cpp, lines 68-87). -/
def GitFileModeToObjectType (m : GitFilemode) : Option ObjectType :=
  match m with
  | .blob => some .File
  | .blobExecutable => some .Executable
  | .tree => some .Tree
  | .link => some .Symlink
  | .other _ => none

/-- Whether a git filemode denotes a tree (mode 040000). -/
def modeIsTree (m : GitFilemode) : Bool :=
  match m with
  | .tree => true
  | _ => false

/-- One record handed to the flat tree walker: entry name, filemode and
object id (git_tree_entry as consumed by the walker callbacks). -/
structure RawTreeEntry where
  name : String
  mode : GitFilemode
  oid : RawId
deriving DecidableEq, Repr

/-- Model of (*entries)[*raw_id].emplace_back(name, type) on the
unordered_map: append the node to the group of its raw id, creating the
group if absent. -/
def insertEntry (entries : tree_entries_t) (id : RawId) (e : TreeEntry) :
    tree_entries_t :=
  if entries.any fun p => p.1 = id then
    entries.map fun p => if p.1 = id then (p.1, p.2 ++ [e]) else p
  else entries ++ [(id, [e])]

/-- git_tree_walk over flat_tree_walker (git_repo.cpp, lines 162-180):
each entry's filemode is converted; an unconvertible mode aborts the walk
with failure; otherwise the node is appended under its raw id. -/
def walkTreeFlat : List RawTreeEntry → tree_entries_t → Option tree_entries_t
  | [], acc => some acc
  | e :: es, acc =>
    match GitFileModeToObjectType e.mode with
    | some t => walkTreeFlat es (insertEntry acc e.oid ⟨e.name, t⟩)
    | none => none

/-- git_tree_walk over flat_tree_walker_ignore_special (git_repo.cpp,
lines 136-160): special modes are skipped silently; remaining modes are
converted and appended. -/
def walkTreeFlatIgnoreSpecial :
    List RawTreeEntry → tree_entries_t → Option tree_entries_t
  | [], acc => some acc
  | e :: es, acc =>
    if GitFileModeIsNonSpecial e.mode then
      match GitFileModeToObjectType e.mode with
      | some t => walkTreeFlatIgnoreSpecial es (insertEntry acc e.oid ⟨e.name, t⟩)
      | none => none
    else walkTreeFlatIgnoreSpecial es acc

/-- Modelled from the spec: the digest handed to the symlink checker
(bazel_re::Digest built from ArtifactDigest(hex_id, size 0, not tree);
artifact_digest.hpp is not under src/). Only the hash and size carry
information here. -/
structure Digest where
  hash : String
  sizeBytes : Nat
deriving DecidableEq, Repr

/-- Digest of one symlink candidate: ArtifactDigest(ToHexString(raw_id),
0, false) as in git_repo.cpp, lines 1844-1847. -/
def digestOf (id : RawId) : Digest :=
  ⟨toHexString id, 0⟩

/-- The symlink-check callable handed to ReadTree (SymlinksCheckFunc). -/
abbrev SymlinksCheckFunc := List Digest → Bool

/-- Symlink candidate gathering of ReadTree (git_repo.cpp, lines
1838-1851): for each raw-id group holding at least one symlink node, one
digest of that raw id is emitted (the inner break makes it at most one per
id). -/
def collectSymlinks (entries : tree_entries_t) : List Digest :=
  entries.filterMap fun e =>
    if e.2.any fun n => IsSymlinkObject n.type then some (digestOf e.1) else none

/-- Phase of ReadTree after the successful flat walk (git_repo.cpp, lines
1834-1869).  The second component records each invocation of the
check_symlinks callable with its argument, so that the number of
invocations is part of the result. -/
def readTreeAfterWalk (entries : tree_entries_t)
    (check_symlinks : Option SymlinksCheckFunc) (ignore_special : Bool) :
    Option tree_entries_t × List (List Digest) :=
  if ignore_special then (some entries, [])
  else
    let symlinks := collectSymlinks entries
    match check_symlinks with
    | none => (none, [])
    | some f => if f symlinks then (some entries, [symlinks]) else (none, [symlinks])

/-- Oracle outcomes of the two libgit2 steps of ReadTree that precede the
walk: GitObjectID creation and git_tree_lookup; a successful lookup yields
the tree's entry records in walk order. -/
structure ReadTreeEnv where
  oidOk : Bool
  lookupTree : Option (List RawTreeEntry)

/-- GitRepo::ReadTree (git_repo.cpp, lines 1792-1877): oid creation, tree
lookup, flat walk (with or without special entries), then the symlink
check batch.  The trace component lists the check_symlinks invocations. -/
def ReadTree (env : ReadTreeEnv) (check_symlinks : Option SymlinksCheckFunc)
    (ignore_special : Bool) : Option tree_entries_t × List (List Digest) :=
  if !env.oidOk then (none, [])
  else
    match env.lookupTree with
    | none => (none, [])
    | some raw =>
      match (if ignore_special then walkTreeFlatIgnoreSpecial raw []
             else walkTreeFlat raw []) with
      | none => (none, [])
      | some entries => readTreeAfterWalk entries check_symlinks ignore_special

/-! ### Walk lemmas -/

/-- insertEntry does not change the keys when the key is present, and
appends it otherwise; in both cases key distinctness is preserved. -/
theorem insertEntry_keys_nodup (acc : tree_entries_t) (k : RawId) (e : TreeEntry)
    (h : (acc.map Prod.fst).Nodup) :
    ((insertEntry acc k e).map Prod.fst).Nodup := by
  unfold insertEntry
  by_cases hmem : (acc.any fun p => p.1 = k) = true
  · rw [if_pos hmem]
    have hkeys : ((acc.map fun p => if p.1 = k then (p.1, p.2 ++ [e]) else p).map
        Prod.fst) = acc.map Prod.fst := by
      rw [List.map_map]
      apply List.map_congr_left
      intro p _
      by_cases hp : p.1 = k <;> simp [hp]
    rw [hkeys]; exact h
  · rw [if_neg hmem]
    rw [List.map_append]
    refine List.Nodup.append h (by simp) ?_
    intro a ha hb
    simp only [List.map_cons, List.map_nil, List.mem_singleton] at hb
    subst hb
    apply hmem
    rw [List.any_eq_true]
    simp only [List.mem_map] at ha
    obtain ⟨p, hp, hpa⟩ := ha
    exact ⟨p, hp, by simp [hpa]⟩

/-- A successful flat walk starting from a listing with distinct keys
yields a listing with distinct keys. -/
theorem walkTreeFlat_keys_nodup :
    ∀ (l : List RawTreeEntry) (acc entries : tree_entries_t),
      (acc.map Prod.fst).Nodup → walkTreeFlat l acc = some entries →
      (entries.map Prod.fst).Nodup := by
  intro l
  induction l with
  | nil =>
    intro acc entries hacc hw
    simp only [walkTreeFlat, Option.some.injEq] at hw
    subst hw; exact hacc
  | cons e es ih =>
    intro acc entries hacc hw
    simp only [walkTreeFlat] at hw
    cases hconv : GitFileModeToObjectType e.mode with
    | none => rw [hconv] at hw; cases hw
    | some t =>
      rw [hconv] at hw
      exact ih _ _ (insertEntry_keys_nodup acc e.oid ⟨e.name, t⟩ hacc) hw

/-- Every group of the listing agrees with the type oracle f: a node under
raw id x is a tree node exactly when f x holds. -/
def agreesWith (f : RawId → Bool) (entries : tree_entries_t) : Prop :=
  ∀ p ∈ entries, ∀ n ∈ p.2, IsTreeObject n.type = f p.1

/-- Conversion preserves tree-ness: the object type produced from a
filemode is a tree type exactly for the tree filemode. -/
theorem gitFileModeToObjectType_tree (m : GitFilemode) (t : ObjectType)
    (h : GitFileModeToObjectType m = some t) :
    IsTreeObject t = modeIsTree m := by
  cases m with
  | blob => cases h; rfl
  | blobExecutable => cases h; rfl
  | tree => cases h; rfl
  | link => cases h; rfl
  | other n => cases h

theorem insertEntry_agreesWith (f : RawId → Bool) (acc : tree_entries_t)
    (id : RawId) (e : TreeEntry) (hacc : agreesWith f acc)
    (he : IsTreeObject e.type = f id) :
    agreesWith f (insertEntry acc id e) := by
  unfold insertEntry
  by_cases hmem : acc.any fun p => p.1 = id
  · simp only [hmem, if_pos]
    intro p hp n hn
    simp only [List.mem_map] at hp
    obtain ⟨q, hq, rfl⟩ := hp
    by_cases hq1 : q.1 = id
    · simp only [hq1, if_pos] at hn ⊢
      simp only [List.mem_append, List.mem_singleton] at hn
      cases hn with
      | inl hn => simpa [hq1] using hacc q hq n hn
      | inr hn => subst hn; simpa [hq1] using he
    · simp only [hq1, if_neg] at hn ⊢
      exact hacc q hq n hn
  · simp only [hmem, if_neg, Bool.not_eq_true]
    intro p hp n hn
    simp only [List.mem_append, List.mem_singleton] at hp
    cases hp with
    | inl hp => exact hacc p hp n hn
    | inr hp =>
      subst hp
      simp only [List.mem_singleton] at hn
      subst hn
      exact he

/-- The flat walk preserves agreement with a type oracle that the raw
input satisfies. -/
theorem walkTreeFlat_agreesWith (f : RawId → Bool) :
    ∀ (l : List RawTreeEntry) (acc entries : tree_entries_t),
      (∀ e ∈ l, modeIsTree e.mode = f e.oid) → agreesWith f acc →
      walkTreeFlat l acc = some entries → agreesWith f entries := by
  intro l
  induction l with
  | nil =>
    intro acc entries _ hacc hw
    simp only [walkTreeFlat, Option.some.injEq] at hw
    subst hw; exact hacc
  | cons e es ih =>
    intro acc entries hl hacc hw
    simp only [walkTreeFlat] at hw
    cases hconv : GitFileModeToObjectType e.mode with
    | none => rw [hconv] at hw; cases hw
    | some t =>
      rw [hconv] at hw
      refine ih _ _ (fun x hx => hl x (List.mem_cons_of_mem _ hx)) ?_ hw
      refine insertEntry_agreesWith f acc e.oid ⟨e.name, t⟩ hacc ?_
      rw [gitFileModeToObjectType_tree e.mode t hconv]
      exact hl e (List.mem_cons_self e es)

/-- The ignore-special flat walk preserves agreement as well. -/
theorem walkTreeFlatIgnoreSpecial_agreesWith (f : RawId → Bool) :
    ∀ (l : List RawTreeEntry) (acc entries : tree_entries_t),
      (∀ e ∈ l, modeIsTree e.mode = f e.oid) → agreesWith f acc →
      walkTreeFlatIgnoreSpecial l acc = some entries → agreesWith f entries := by
  intro l
  induction l with
  | nil =>
    intro acc entries _ hacc hw
    simp only [walkTreeFlatIgnoreSpecial, Option.some.injEq] at hw
    subst hw; exact hacc
  | cons e es ih =>
    intro acc entries hl hacc hw
    simp only [walkTreeFlatIgnoreSpecial] at hw
    by_cases hspec : GitFileModeIsNonSpecial e.mode
    · rw [if_pos hspec] at hw
      cases hconv : GitFileModeToObjectType e.mode with
      | none => rw [hconv] at hw; cases hw
      | some t =>
        rw [hconv] at hw
        refine ih _ _ (fun x hx => hl x (List.mem_cons_of_mem _ hx)) ?_ hw
        refine insertEntry_agreesWith f acc e.oid ⟨e.name, t⟩ hacc ?_
        rw [gitFileModeToObjectType_tree e.mode t hconv]
        exact hl e (List.mem_cons_self e es)
    · rw [if_neg hspec] at hw
      exact ih _ _ (fun x hx => hl x (List.mem_cons_of_mem _ hx)) hacc hw

/-- Agreement with any type oracle implies the per-id all-tree-or-no-tree
audit predicate. -/
theorem agreesWith_validateEntries (f : RawId → Bool) (entries : tree_entries_t)
    (h : agreesWith f entries) : ValidateEntries entries = true := by
  rw [ValidateEntries, List.all_eq_true]
  intro p hp
  rw [Bool.or_eq_true, List.all_eq_true, List.all_eq_true]
  cases hf : f p.1 with
  | true =>
    left
    intro n hn
    rw [h p hp n hn, hf]
  | false =>
    right
    intro n hn
    rw [Bool.not_eq_true', h p hp n hn, hf]

/-- Claim C7: a tree listing produced by either flat walk from a tree
whose entries are consistently typed (each object id has one tree-or-not
classification, as git's content addressing guarantees) satisfies the
ValidateEntries invariant audited by ReadTree (EnsuresAudit, line 1866)
and expected by CreateTree (ExpectsAudit, line 1885): per raw id, all
nodes are trees or none is. -/
theorem claim_C7_validate_entries (l : List RawTreeEntry) (f : RawId → Bool)
    (entries : tree_entries_t)
    (htyped : ∀ e ∈ l, modeIsTree e.mode = f e.oid) :
    (walkTreeFlat l [] = some entries → ValidateEntries entries = true) ∧
    (walkTreeFlatIgnoreSpecial l [] = some entries →
      ValidateEntries entries = true) := by
  constructor
  · intro hw
    exact agreesWith_validateEntries f entries
      (walkTreeFlat_agreesWith f l [] entries htyped (by intro p hp; cases hp) hw)
  · intro hw
    exact agreesWith_validateEntries f entries
      (walkTreeFlatIgnoreSpecial_agreesWith f l [] entries htyped
        (by intro p hp; cases hp) hw)

/-- Concrete raw tree used to evaluate the ReadTree claims: a blob, a
symlink and a subtree, at three distinct object ids. -/
def exampleRawTree : List RawTreeEntry :=
  [⟨"a.txt", .blob, [(10 : Fin 256)]⟩,
   ⟨"link", .link, [(20 : Fin 256)]⟩,
   ⟨"sub", .tree, [(30 : Fin 256)]⟩]

/-- Tree-ness oracle of the example tree. -/
def exampleTypeOracle (id : RawId) : Bool :=
  id = [(30 : Fin 256)]

/-- Claim C7, witness: the example walk validates. -/
theorem claim_C7_validate_entries_witness :
    walkTreeFlat exampleRawTree [] =
      some [([(10 : Fin 256)], [⟨"a.txt", ObjectType.File⟩]),
            ([(20 : Fin 256)], [⟨"link", ObjectType.Symlink⟩]),
            ([(30 : Fin 256)], [⟨"sub", ObjectType.Tree⟩])] ∧
    ValidateEntries [([(10 : Fin 256)], [⟨"a.txt", ObjectType.File⟩]),
            ([(20 : Fin 256)], [⟨"link", ObjectType.Symlink⟩]),
            ([(30 : Fin 256)], [⟨"sub", ObjectType.Tree⟩])] = true := by
  refine ⟨by decide, ?_⟩
  exact (claim_C7_validate_entries exampleRawTree exampleTypeOracle _
    (by decide)).1 (by decide)

/-! ### Claims C1 and C10 on ReadTree's symlink-check phase -/

/-- The gathered symlink batch is the image of exactly the raw-id groups
containing a symlink node, one digest per group. -/
theorem collectSymlinks_eq (entries : tree_entries_t) :
    collectSymlinks entries =
      (entries.filter fun p => p.2.any fun n => IsSymlinkObject n.type).map
        fun p => digestOf p.1 := by
  induction entries with
  | nil => rfl
  | cons p ps ih =>
    by_cases hp : (p.2.any fun n => IsSymlinkObject n.type) = true
    · have h1 : collectSymlinks (p :: ps) = digestOf p.1 :: collectSymlinks ps := by
        unfold collectSymlinks
        exact List.filterMap_cons_some (by rw [if_pos hp])
      rw [h1]
      simp [List.filter_cons, hp, ih]
    · have h1 : collectSymlinks (p :: ps) = collectSymlinks ps := by
        unfold collectSymlinks
        exact List.filterMap_cons_none (by rw [if_neg hp])
      rw [h1]
      simp [List.filter_cons, hp, ih]

/-- Claim C1: with ignoreSpecial false, after a successful flat walk
ReadTree gathers one digest per raw-id group containing a symlink node
(deduplicated, as the walk keeps keys distinct), invokes the caller's
check_symlinks callable exactly once over that batch, fails (None) exactly
when the callable returns false, and returns the full listing when it
returns true. -/
theorem claim_C1_readtree_symlink_check (env : ReadTreeEnv)
    (raw : List RawTreeEntry) (entries : tree_entries_t)
    (f : SymlinksCheckFunc)
    (hoid : env.oidOk = true)
    (hlook : env.lookupTree = some raw)
    (hwalk : walkTreeFlat raw [] = some entries) :
    (ReadTree env (some f) false).2 = [collectSymlinks entries] ∧
    collectSymlinks entries =
      (entries.filter fun p => p.2.any fun n => IsSymlinkObject n.type).map
        (fun p => digestOf p.1) ∧
    ((entries.filter fun p => p.2.any fun n => IsSymlinkObject n.type).map
        Prod.fst).Nodup ∧
    ((ReadTree env (some f) false).1 = none ↔ f (collectSymlinks entries) = false) ∧
    (f (collectSymlinks entries) = true →
      (ReadTree env (some f) false).1 = some entries) := by
  have hNodup : (entries.map Prod.fst).Nodup :=
    walkTreeFlat_keys_nodup raw [] entries (by simp) hwalk
  have hread : ReadTree env (some f) false =
      readTreeAfterWalk entries (some f) false := by
    simp [ReadTree, hoid, hlook, hwalk]
  refine ⟨?_, collectSymlinks_eq entries, ?_, ?_, ?_⟩
  · rw [hread]
    simp only [readTreeAfterWalk, if_neg (Bool.false_ne_true)]
    cases hf : f (collectSymlinks entries) <;> simp [hf]
  · have hsub : (entries.filter fun p => p.2.any fun n =>
        IsSymlinkObject n.type).Sublist entries := List.filter_sublist entries
    exact hNodup.sublist (hsub.map Prod.fst)
  · rw [hread]
    simp only [readTreeAfterWalk, if_neg (Bool.false_ne_true)]
    cases hf : f (collectSymlinks entries) <;> simp [hf]
  · intro hf
    rw [hread]
    simp [readTreeAfterWalk, hf]

/-- Environment of the example ReadTree runs: oid valid, lookup returning
the example raw tree. -/
def exampleReadTreeEnv : ReadTreeEnv :=
  { oidOk := true, lookupTree := some exampleRawTree }

/-- Claim C1, witness: on the example tree with an always-true checker,
ReadTree succeeds with the full listing and the checker is called once,
on the single symlink digest. -/
theorem claim_C1_readtree_symlink_check_witness :
    (ReadTree exampleReadTreeEnv (some fun _ => true) false).1 =
      some [([(10 : Fin 256)], [⟨"a.txt", ObjectType.File⟩]),
            ([(20 : Fin 256)], [⟨"link", ObjectType.Symlink⟩]),
            ([(30 : Fin 256)], [⟨"sub", ObjectType.Tree⟩])] ∧
    (ReadTree exampleReadTreeEnv (some fun _ => true) false).2 =
      [[⟨toHexString [(20 : Fin 256)], 0⟩]] := by
  have h := claim_C1_readtree_symlink_check exampleReadTreeEnv exampleRawTree
    [([(10 : Fin 256)], [⟨"a.txt", ObjectType.File⟩]),
     ([(20 : Fin 256)], [⟨"link", ObjectType.Symlink⟩]),
     ([(30 : Fin 256)], [⟨"sub", ObjectType.Tree⟩])]
    (fun _ => true) rfl rfl (by decide)
  refine ⟨h.2.2.2.2 rfl, ?_⟩
  rw [h.1]
  decide

/-- Claim C10: with ignoreSpecial false and an empty (null) check_symlinks
callable, ReadTree returns None for every lookup and walk outcome — in
particular even when the tree holds no symlink at all — so a non-empty
callable is a precondition for success in this mode. -/
theorem claim_C10_null_checker_fails (env : ReadTreeEnv) :
    (ReadTree env none false).1 = none := by
  unfold ReadTree
  cases hoid : env.oidOk with
  | false => rfl
  | true =>
    simp only [Bool.not_true, if_neg (Bool.false_ne_true)]
    cases env.lookupTree with
    | none => rfl
    | some raw =>
      simp only
      cases walkTreeFlat raw [] with
      | none => rfl
      | some entries =>
        simp [readTreeAfterWalk]

/-! ## Repository operations: oracle environments and traces -/

/-- Model of git_strarray: a count and the owned strings.  PopulateStrarray
fills both from a string list. -/
structure Strarray where
  count : Nat
  strings : List String
deriving DecidableEq, Repr

/-- GitRepo::PopulateStrarray (git_repo.cpp, lines 2002-2015): the array
count is the list size and each list element is copied into the array in
order. -/
def PopulateStrarray (string_list : List String) : Strarray :=
  { count := string_list.length, strings := string_list }

/-- Outcome of one git_tag_create call. -/
inductive TagCreateResult where
  | ok
  | locked
  | otherError
deriving DecidableEq, Repr

/-- Observable repository-touching steps of the operations, recorded as a
trace: lock acquisition, libgit2 lookups and writes, sleeps, and the
remote fetch with the refspec array handed to it. -/
inductive RepoEvent where
  | lockShared
  | treeLookup
  | entryLookup
  | stageFiles
  | commitCreate
  | headLookup
  | remoteCreate
  | fetch (refspecs : Strarray)
  | tagCreate (result : TagCreateResult)
  | tagRecheckFound
  | sleepMs (wait : Nat)
deriving DecidableEq, Repr

/-- Error type of GetSubtreeFromCommit (GitLookupError of git_repo.hpp,
reconstructed from its two uses Fatal and NotFound in git_repo.cpp). -/
inductive GitLookupError where
  | Fatal
  | NotFound
deriving DecidableEq, Repr

/-- Oracle outcomes of the libgit2 steps of GetSubtreeFromCommit:
git_oid_fromstr on the commit hex, git_commit_lookup, git_commit_tree
(yielding the root tree id), and git_tree_entry_bypath on the root tree. -/
structure SubtreeFromCommitEnv where
  parseOk : Bool
  commitLookupOk : Bool
  commitTree : Option RawId
  entryByPath : String → Option RawId

/-- GitRepo::GetSubtreeFromCommit (git_repo.cpp, lines 1060-1155): parse
the commit id (Fatal on failure), look up the commit (NotFound on
failure), get its tree (Fatal on failure); for a non-trivial subdir look
up the entry by path (Fatal on failure) and return its hex id, else the
hex id of the root tree. -/
def GetSubtreeFromCommit (env : SubtreeFromCommitEnv) (subdir : String) :
    Except GitLookupError String :=
  if !env.parseOk then .error .Fatal
  else if !env.commitLookupOk then .error .NotFound
  else
    match env.commitTree with
    | none => .error .Fatal
    | some root =>
      if subdir ≠ "." then
        match env.entryByPath subdir with
        | none => .error .Fatal
        | some sub => .ok (toHexString sub)
      else .ok (toHexString root)

/-- Claim C3: GetSubtreeFromCommit yields NotFound exactly when the commit
object lookup fails (after a successful id parse); a malformed commit id,
a failed commit-tree retrieval and a failed subdir entry lookup all yield
Fatal; on success it returns the hex id of the subdir entry, or of the
commit's root tree when subdir is the trivial path. -/
theorem claim_C3_subtree_from_commit (env : SubtreeFromCommitEnv) (subdir : String) :
    (GetSubtreeFromCommit env subdir = .error .NotFound ↔
      env.parseOk = true ∧ env.commitLookupOk = false) ∧
    (env.parseOk = false → GetSubtreeFromCommit env subdir = .error .Fatal) ∧
    (env.parseOk = true → env.commitLookupOk = true → env.commitTree = none →
      GetSubtreeFromCommit env subdir = .error .Fatal) ∧
    (∀ root, env.parseOk = true → env.commitLookupOk = true →
      env.commitTree = some root → subdir ≠ "." → env.entryByPath subdir = none →
      GetSubtreeFromCommit env subdir = .error .Fatal) ∧
    (∀ root, env.parseOk = true → env.commitLookupOk = true →
      env.commitTree = some root → subdir = "." →
      GetSubtreeFromCommit env subdir = .ok (toHexString root)) ∧
    (∀ root sub, env.parseOk = true → env.commitLookupOk = true →
      env.commitTree = some root → subdir ≠ "." →
      env.entryByPath subdir = some sub →
      GetSubtreeFromCommit env subdir = .ok (toHexString sub)) := by
  refine ⟨⟨?_, ?_⟩, ?_, ?_, ?_, ?_, ?_⟩
  · intro h
    cases hp : env.parseOk with
    | false => simp [GetSubtreeFromCommit, hp] at h
    | true =>
      cases hl : env.commitLookupOk with
      | false => exact ⟨rfl, rfl⟩
      | true =>
        exfalso
        cases htree : env.commitTree with
        | none => simp [GetSubtreeFromCommit, hp, hl, htree] at h
        | some root =>
          by_cases hs : subdir = "."
          · simp [GetSubtreeFromCommit, hp, hl, htree, hs] at h
          · cases he : env.entryByPath subdir with
            | none => simp [GetSubtreeFromCommit, hp, hl, htree, hs, he] at h
            | some sub => simp [GetSubtreeFromCommit, hp, hl, htree, hs, he] at h
  · rintro ⟨hp, hl⟩
    simp [GetSubtreeFromCommit, hp, hl]
  · intro hp
    simp [GetSubtreeFromCommit, hp]
  · intro hp hl htree
    simp [GetSubtreeFromCommit, hp, hl, htree]
  · intro root hp hl htree hs he
    simp [GetSubtreeFromCommit, hp, hl, htree, hs, he]
  · intro root hp hl htree hs
    simp [GetSubtreeFromCommit, hp, hl, htree, hs]
  · intro root sub hp hl htree hs he
    simp [GetSubtreeFromCommit, hp, hl, htree, hs, he]

/-- Concrete environment for the GetSubtreeFromCommit witness: the commit
parses and resolves, its root tree is id 1 and the path dir resolves to
id 2. -/
def exampleCommitEnv : SubtreeFromCommitEnv :=
  { parseOk := true,
    commitLookupOk := false,
    commitTree := some [(1 : Fin 256)],
    entryByPath := fun p => if p = "dir" then some [(2 : Fin 256)] else none }

/-- Claim C3, witness: a failing commit lookup yields NotFound, and with
the lookup succeeding the trivial and non-trivial subdirs yield the two
hex ids. -/
theorem claim_C3_subtree_from_commit_witness :
    GetSubtreeFromCommit exampleCommitEnv "dir" = .error .NotFound ∧
    GetSubtreeFromCommit { exampleCommitEnv with commitLookupOk := true } "." =
      .ok (toHexString [(1 : Fin 256)]) ∧
    GetSubtreeFromCommit { exampleCommitEnv with commitLookupOk := true } "dir" =
      .ok (toHexString [(2 : Fin 256)]) := by
  refine ⟨?_, ?_, ?_⟩
  · exact (claim_C3_subtree_from_commit exampleCommitEnv "dir").1.2 ⟨rfl, rfl⟩
  · exact (claim_C3_subtree_from_commit _ ".").2.2.2.2.1 [(1 : Fin 256)]
      rfl rfl rfl rfl
  · exact (claim_C3_subtree_from_commit _ "dir").2.2.2.2.2 [(1 : Fin 256)]
      [(2 : Fin 256)] rfl rfl rfl (by decide) (by simp [exampleCommitEnv])

/-! ## GetSubtreeFromTree (git_repo.cpp, lines 1157-1236) -/

/-- Oracle outcomes of the libgit2 steps of GetSubtreeFromTree: tree id
parse, tree lookup, and the entry-by-path lookup. -/
structure SubtreeFromTreeEnv where
  parseOk : Bool
  treeLookupOk : Bool
  entryByPath : String → Option RawId

/-- GitRepo::GetSubtreeFromTree: the trivial subdir returns the given tree
hex immediately, with no lock and no lookup; otherwise, under the shared
lock, the tree id is parsed, the tree looked up and the entry resolved by
path, failures yielding None. -/
def GetSubtreeFromTree (env : SubtreeFromTreeEnv) (tree_id subdir : String) :
    Option String × List RepoEvent :=
  if subdir ≠ "." then
    if !env.parseOk then (none, [.lockShared])
    else if !env.treeLookupOk then (none, [.lockShared, .treeLookup])
    else
      match env.entryByPath subdir with
      | none => (none, [.lockShared, .treeLookup, .entryLookup])
      | some s => (some (toHexString s), [.lockShared, .treeLookup, .entryLookup])
  else (some tree_id, [])

/-- Claim C6: for the trivial subdir GetSubtreeFromTree returns its input
tree hex unchanged, with an empty trace (no lock, no lookup); for every
other subdir it returns the hex id of the entry found by path lookup, or
None when the parse, the tree lookup or the path lookup fails. -/
theorem claim_C6_subtree_from_tree (env : SubtreeFromTreeEnv) (t : String) :
    GetSubtreeFromTree env t "." = (some t, []) ∧
    (∀ subdir, subdir ≠ "." →
      (env.parseOk = false →
        GetSubtreeFromTree env t subdir = (none, [.lockShared])) ∧
      (env.parseOk = true → env.treeLookupOk = false →
        GetSubtreeFromTree env t subdir = (none, [.lockShared, .treeLookup])) ∧
      (env.parseOk = true → env.treeLookupOk = true →
        GetSubtreeFromTree env t subdir =
          ((env.entryByPath subdir).map toHexString,
           [.lockShared, .treeLookup, .entryLookup]))) := by
  refine ⟨by simp [GetSubtreeFromTree], fun subdir hs => ⟨?_, ?_, ?_⟩⟩
  · intro hp
    simp [GetSubtreeFromTree, hs, hp]
  · intro hp hl
    simp [GetSubtreeFromTree, hs, hp, hl]
  · intro hp hl
    cases he : env.entryByPath subdir <;>
      simp [GetSubtreeFromTree, hs, hp, hl, he]

/-- Concrete environment for the GetSubtreeFromTree witness. -/
def exampleTreeEnv : SubtreeFromTreeEnv :=
  { parseOk := true,
    treeLookupOk := true,
    entryByPath := fun p => if p = "dir" then some [(2 : Fin 256)] else none }

/-- Claim C6, witness: the trivial subdir is the identity with an empty
trace, and a path lookup returns the entry hex. -/
theorem claim_C6_subtree_from_tree_witness :
    GetSubtreeFromTree exampleTreeEnv "sometree" "." = (some "sometree", []) ∧
    GetSubtreeFromTree exampleTreeEnv "sometree" "dir" =
      (some (toHexString [(2 : Fin 256)]),
       [.lockShared, .treeLookup, .entryLookup]) := by
  refine ⟨(claim_C6_subtree_from_tree exampleTreeEnv "sometree").1, ?_⟩
  have h := ((claim_C6_subtree_from_tree exampleTreeEnv "sometree").2 "dir"
    (by decide)).2.2 rfl rfl
  rw [h]
  rfl

/-! ## TryReadBlob (git_repo.cpp, lines 1499-1557) -/

/-- Outcome of a libgit2 object lookup. -/
inductive LookupResult where
  | ok
  | notFound
  | otherError
deriving DecidableEq, Repr

/-- Oracle outcomes of the steps of TryReadBlob: blob id parse, blob
lookup, and the subsequent object read from the CAS. -/
structure TryReadBlobEnv where
  parseOk : Bool
  blobLookup : LookupResult
  readObject : Option String

/-- GitRepo::TryReadBlob: a malformed id yields (false, None); a clean
NotFound of the lookup yields (true, None); any other lookup error yields
(false, None); after a successful lookup the object is read, a failing
read yielding (false, None) and a successful one (true, Some data). -/
def TryReadBlob (env : TryReadBlobEnv) : Bool × Option String :=
  if !env.parseOk then (false, none)
  else
    match env.blobLookup with
    | .notFound => (true, none)
    | .otherError => (false, none)
    | .ok =>
      match env.readObject with
      | none => (false, none)
      | some data => (true, some data)

/-- Claim C8: TryReadBlob returns (true, None) exactly on a clean NotFound
of the blob lookup; a malformed id, any other lookup error, and a failed
object read after a successful lookup all return (false, None); on success
it returns (true, Some data) with the blob's content. -/
theorem claim_C8_try_read_blob (env : TryReadBlobEnv) :
    (TryReadBlob env = (true, none) ↔
      env.parseOk = true ∧ env.blobLookup = .notFound) ∧
    (env.parseOk = false → TryReadBlob env = (false, none)) ∧
    (env.parseOk = true → env.blobLookup = .otherError →
      TryReadBlob env = (false, none)) ∧
    (env.parseOk = true → env.blobLookup = .ok → env.readObject = none →
      TryReadBlob env = (false, none)) ∧
    (∀ data, env.parseOk = true → env.blobLookup = .ok →
      env.readObject = some data → TryReadBlob env = (true, some data)) := by
  refine ⟨⟨?_, ?_⟩, ?_, ?_, ?_, ?_⟩
  · intro h
    cases hp : env.parseOk with
    | false => simp [TryReadBlob, hp] at h
    | true =>
      cases hl : env.blobLookup with
      | notFound => exact ⟨rfl, rfl⟩
      | otherError => simp [TryReadBlob, hp, hl] at h
      | ok =>
        exfalso
        simp only [TryReadBlob, hp, hl, Bool.not_true,
          if_neg (Bool.false_ne_true)] at h
        cases hr : env.readObject with
        | none => rw [hr] at h; cases h
        | some data => rw [hr] at h; simp at h
  · rintro ⟨hp, hl⟩
    simp [TryReadBlob, hp, hl]
  · intro hp
    simp [TryReadBlob, hp]
  · intro hp hl
    simp [TryReadBlob, hp, hl]
  · intro hp hl hr
    simp [TryReadBlob, hp, hl, hr]
  · intro data hp hl hr
    simp [TryReadBlob, hp, hl, hr]

/-- Claim C8, witness: the four outcomes at concrete environments. -/
theorem claim_C8_try_read_blob_witness :
    TryReadBlob ⟨true, .notFound, none⟩ = (true, none) ∧
    TryReadBlob ⟨false, .ok, some "x"⟩ = (false, none) ∧
    TryReadBlob ⟨true, .otherError, none⟩ = (false, none) ∧
    TryReadBlob ⟨true, .ok, some "data"⟩ = (true, some "data") := by
  refine ⟨?_, ?_, ?_, ?_⟩
  · exact (claim_C8_try_read_blob ⟨true, .notFound, none⟩).1.2 ⟨rfl, rfl⟩
  · exact (claim_C8_try_read_blob ⟨false, .ok, some "x"⟩).2.1 rfl
  · exact (claim_C8_try_read_blob ⟨true, .otherError, none⟩).2.2.1 rfl rfl
  · exact (claim_C8_try_read_blob ⟨true, .ok, some "data"⟩).2.2.2.2 "data"
      rfl rfl rfl

/-! ## KeepTag and KeepTree (git_repo.cpp, lines 699-806 and 937-1058) -/

/-- Number of git_tag_create calls recorded in a trace. -/
def countCreates (tr : List RepoEvent) : Nat :=
  tr.countP fun e =>
    match e with
    | .tagCreate _ => true
    | _ => false

/-- Retry loop shared by KeepTag and KeepTree (git_repo.cpp, lines
762-794): with attempts remaining, call git_tag_create; success returns
true; a non-Locked error breaks out with failure; on Locked, re-check
whether another process created the tag (success if so), else sleep
kGitLockWaitTime milliseconds and try again.  The first argument of the
oracles is the attempt index; tagFound (t+1) is the re-check after attempt
t. -/
def keepTagLoop (create : Nat → TagCreateResult) (tagFound : Nat → Bool)
    (wait : Nat) : Nat → Nat → Bool × List RepoEvent
  | 0, _ => (false, [])
  | k + 1, t =>
    match create t with
    | .ok => (true, [.tagCreate .ok])
    | .otherError => (false, [.tagCreate .otherError])
    | .locked =>
      if tagFound (t + 1) then (true, [.tagCreate .locked, .tagRecheckFound])
      else
        let rest := keepTagLoop create tagFound wait k (t + 1)
        (rest.1, .tagCreate .locked :: .sleepMs wait :: rest.2)

/-- Keep-tag name: fmt::format of keep- and the target hex (git_repo.cpp,
lines 751 and 999). -/
def keepTagName (target : String) : String :=
  "keep-" ++ target

/-- Oracle outcomes for KeepTag: the fake flag, git_revparse_single,
git_signature_new, the tag list checks per tag name (index 0 is the check
before the first attempt) and the tag creations per tag name. -/
structure KeepTagEnv where
  isRepoFake : Bool
  revparseOk : Bool
  signatureOk : Bool
  tagFound : String → Nat → Bool
  tagCreate : String → Nat → TagCreateResult

/-- GitRepo::KeepTag: fake handles fail before the lock; then, under the
shared lock, rev-parse and signature failures fail; a pre-existing tag
named keep-commit succeeds without any creation attempt; otherwise the
retry loop runs with numTries attempts on that tag name. -/
def KeepTag (env : KeepTagEnv) (commit : String) (numTries wait : Nat) :
    Bool × List RepoEvent :=
  if env.isRepoFake then (false, [])
  else if !env.revparseOk then (false, [.lockShared])
  else if !env.signatureOk then (false, [.lockShared])
  else if env.tagFound (keepTagName commit) 0 then (true, [.lockShared])
  else
    let l := keepTagLoop (env.tagCreate (keepTagName commit))
      (env.tagFound (keepTagName commit)) wait numTries 0
    (l.1, .lockShared :: l.2)

/-- Oracle outcomes for KeepTree: the fake flag, git_oid_fromstr, the
tree object lookup, git_signature_new, the tag list checks and the tag
creations per tag name. -/
structure KeepTreeEnv where
  isRepoFake : Bool
  oidParseOk : Bool
  objectLookupOk : Bool
  signatureOk : Bool
  tagFound : String → Nat → Bool
  tagCreate : String → Nat → TagCreateResult

/-- GitRepo::KeepTree: the same shape as KeepTag with the rev-parse step
replaced by tree id parsing and tree object lookup. -/
def KeepTree (env : KeepTreeEnv) (tree_id : String) (numTries wait : Nat) :
    Bool × List RepoEvent :=
  if env.isRepoFake then (false, [])
  else if !env.oidParseOk then (false, [.lockShared])
  else if !env.objectLookupOk then (false, [.lockShared, .treeLookup])
  else if !env.signatureOk then (false, [.lockShared, .treeLookup])
  else if env.tagFound (keepTagName tree_id) 0 then (true, [.lockShared, .treeLookup])
  else
    let l := keepTagLoop (env.tagCreate (keepTagName tree_id))
      (env.tagFound (keepTagName tree_id)) wait numTries 0
    (l.1, .lockShared :: .treeLookup :: l.2)

theorem countCreates_tagCreate_cons (r : TagCreateResult) (tr : List RepoEvent) :
    countCreates (.tagCreate r :: tr) = countCreates tr + 1 := by
  simp [countCreates, List.countP_cons]

theorem countCreates_sleepMs_cons (w : Nat) (tr : List RepoEvent) :
    countCreates (.sleepMs w :: tr) = countCreates tr := by
  simp [countCreates, List.countP_cons]

theorem countCreates_lockShared_cons (tr : List RepoEvent) :
    countCreates (.lockShared :: tr) = countCreates tr := by
  simp [countCreates, List.countP_cons]

theorem countCreates_treeLookup_cons (tr : List RepoEvent) :
    countCreates (.treeLookup :: tr) = countCreates tr := by
  simp [countCreates, List.countP_cons]

/-- Full behaviour of the keep-tag retry loop: at most the given number of
creation attempts, every sleep is of the given wait, success happens
exactly when some attempt within the budget succeeds or finds the tag on
re-check after a Locked failure with all earlier attempts Locked-and
not-found, and a non-Locked error aborts right after its attempt. -/
theorem keepTagLoop_spec (create : Nat → TagCreateResult) (tagFound : Nat → Bool)
    (wait : Nat) :
    ∀ (k t : Nat),
      countCreates (keepTagLoop create tagFound wait k t).2 ≤ k ∧
      (∀ w, RepoEvent.sleepMs w ∈ (keepTagLoop create tagFound wait k t).2 →
        w = wait) ∧
      ((keepTagLoop create tagFound wait k t).1 = true ↔
        ∃ j < k, (∀ i < j, create (t + i) = .locked ∧ tagFound (t + i + 1) = false) ∧
          (create (t + j) = .ok ∨
            (create (t + j) = .locked ∧ tagFound (t + j + 1) = true))) ∧
      (∀ j < k, (∀ i < j, create (t + i) = .locked ∧ tagFound (t + i + 1) = false) →
        create (t + j) = .otherError →
        (keepTagLoop create tagFound wait k t).1 = false ∧
        countCreates (keepTagLoop create tagFound wait k t).2 = j + 1) := by
  intro k
  induction k with
  | zero =>
    intro t
    refine ⟨by simp [keepTagLoop, countCreates], by simp [keepTagLoop], ?_, ?_⟩
    · simp [keepTagLoop]
    · intro j hj
      exact absurd hj (Nat.not_lt_zero j)
  | succ k ih =>
    intro t
    cases hc : create t with
    | ok =>
      refine ⟨?_, ?_, ?_, ?_⟩
      · simp [keepTagLoop, hc, countCreates]
      · intro w hw
        simp [keepTagLoop, hc] at hw
      · constructor
        · intro _
          exact ⟨0, Nat.succ_pos k, fun i hi => absurd hi (Nat.not_lt_zero i),
            Or.inl (by simpa using hc)⟩
        · intro _
          simp [keepTagLoop, hc]
      · intro j hj hpre hother
        exfalso
        cases j with
        | zero => rw [Nat.add_zero] at hother; rw [hc] at hother; cases hother
        | succ j =>
          have := (hpre 0 (Nat.succ_pos j)).1
          rw [Nat.add_zero] at this
          rw [hc] at this; cases this
    | otherError =>
      refine ⟨?_, ?_, ?_, ?_⟩
      · simp [keepTagLoop, hc, countCreates]
      · intro w hw
        simp [keepTagLoop, hc] at hw
      · constructor
        · intro h
          simp [keepTagLoop, hc] at h
        · rintro ⟨j, hj, hpre, hterm⟩
          exfalso
          cases j with
          | zero =>
            rw [Nat.add_zero] at hterm
            rcases hterm with h | ⟨h, _⟩ <;> (rw [hc] at h; cases h)
          | succ j =>
            have := (hpre 0 (Nat.succ_pos j)).1
            rw [Nat.add_zero] at this
            rw [hc] at this; cases this
      · intro j hj hpre hother
        cases j with
        | zero => simp [keepTagLoop, hc, countCreates]
        | succ j =>
          exfalso
          have := (hpre 0 (Nat.succ_pos j)).1
          rw [Nat.add_zero] at this
          rw [hc] at this; cases this
    | locked =>
      cases hf : tagFound (t + 1) with
      | true =>
        refine ⟨?_, ?_, ?_, ?_⟩
        · simp [keepTagLoop, hc, hf, countCreates]
        · intro w hw
          simp [keepTagLoop, hc, hf] at hw
        · constructor
          · intro _
            refine ⟨0, Nat.succ_pos k, fun i hi => absurd hi (Nat.not_lt_zero i),
              Or.inr ⟨by simpa using hc, by simpa using hf⟩⟩
          · intro _
            simp [keepTagLoop, hc, hf]
        · intro j hj hpre hother
          exfalso
          cases j with
          | zero => rw [Nat.add_zero] at hother; rw [hc] at hother; cases hother
          | succ j =>
            have := (hpre 0 (Nat.succ_pos j)).2
            rw [Nat.add_zero] at this
            rw [hf] at this; cases this
      | false =>
        have hstep : keepTagLoop create tagFound wait (k + 1) t =
            ((keepTagLoop create tagFound wait k (t + 1)).1,
             .tagCreate .locked :: .sleepMs wait ::
               (keepTagLoop create tagFound wait k (t + 1)).2) := by
          simp [keepTagLoop, hc, hf]
        obtain ⟨ihc, ihs, ihi, iha⟩ := ih (t + 1)
        refine ⟨?_, ?_, ?_, ?_⟩
        · rw [hstep]
          simp only [countCreates_tagCreate_cons, countCreates_sleepMs_cons]
          omega
        · intro w hw
          rw [hstep] at hw
          simp only [List.mem_cons] at hw
          rcases hw with h | h | h
          · cases h
          · cases h; rfl
          · exact ihs w h
        · rw [hstep]
          simp only
          rw [ihi]
          constructor
          · rintro ⟨j, hj, hpre, hterm⟩
            refine ⟨j + 1, Nat.succ_lt_succ hj, ?_, ?_⟩
            · intro i hi
              cases i with
              | zero =>
                rw [Nat.add_zero]
                exact ⟨hc, hf⟩
              | succ i =>
                have := hpre i (Nat.lt_of_succ_lt_succ hi)
                constructor
                · have harr : t + (i + 1) = t + 1 + i := by omega
                  rw [harr]; exact this.1
                · have harr : t + (i + 1) + 1 = t + 1 + i + 1 := by omega
                  rw [harr]; exact this.2
            · have harr : t + (j + 1) = t + 1 + j := by omega
              rw [harr]
              exact hterm
          · rintro ⟨j, hj, hpre, hterm⟩
            cases j with
            | zero =>
              exfalso
              rw [Nat.add_zero] at hterm
              rcases hterm with h | ⟨_, h⟩
              · rw [hc] at h; cases h
              · rw [hf] at h; cases h
            | succ j =>
              refine ⟨j, Nat.lt_of_succ_lt_succ hj, ?_, ?_⟩
              · intro i hi
                have := hpre (i + 1) (Nat.succ_lt_succ hi)
                constructor
                · have harr : t + 1 + i = t + (i + 1) := by omega
                  rw [harr]; exact this.1
                · have harr : t + 1 + i + 1 = t + (i + 1) + 1 := by omega
                  rw [harr]; exact this.2
              · have harr : t + 1 + j = t + (j + 1) := by omega
                rw [harr]
                exact hterm
        · intro j hj hpre hother
          cases j with
          | zero =>
            exfalso
            rw [Nat.add_zero] at hother
            rw [hc] at hother; cases hother
          | succ j =>
            have hpre2 : ∀ i < j, create (t + 1 + i) = .locked ∧
                tagFound (t + 1 + i + 1) = false := by
              intro i hi
              have := hpre (i + 1) (Nat.succ_lt_succ hi)
              constructor
              · have harr : t + 1 + i = t + (i + 1) := by omega
                rw [harr]; exact this.1
              · have harr : t + 1 + i + 1 = t + (i + 1) + 1 := by omega
                rw [harr]; exact this.2
            have hother2 : create (t + 1 + j) = .otherError := by
              have harr : t + 1 + j = t + (j + 1) := by omega
              rw [harr]; exact hother
            obtain ⟨hres, hcount⟩ :=
              iha j (Nat.lt_of_succ_lt_succ hj) hpre2 hother2
            constructor
            · rw [hstep]; exact hres
            · rw [hstep]
              simp only [countCreates_tagCreate_cons, countCreates_sleepMs_cons]
              omega

/-- Claim C4: KeepTag on a real handle (rev-parse and signature
succeeding) returns success without any creation attempt when the
keep-tag already exists; it makes at most numTries (kGitLockNumTries)
creation attempts, every sleep between attempts is of wait
(kGitLockWaitTime) milliseconds, it succeeds exactly when some attempt in
the budget succeeds or, after a Locked failure, the re-check finds the tag
created by another process, and a non-Locked creation error aborts
immediately after its attempt with failure. -/
theorem claim_C4_keep_tag (env : KeepTagEnv) (commit : String) (n wait : Nat)
    (hfake : env.isRepoFake = false)
    (hrev : env.revparseOk = true)
    (hsig : env.signatureOk = true) :
    (env.tagFound (keepTagName commit) 0 = true →
      KeepTag env commit n wait = (true, [.lockShared])) ∧
    countCreates (KeepTag env commit n wait).2 ≤ n ∧
    (∀ w, RepoEvent.sleepMs w ∈ (KeepTag env commit n wait).2 → w = wait) ∧
    ((KeepTag env commit n wait).1 = true ↔
      env.tagFound (keepTagName commit) 0 = true ∨
        ∃ j < n, (∀ i < j, env.tagCreate (keepTagName commit) i = .locked ∧
            env.tagFound (keepTagName commit) (i + 1) = false) ∧
          (env.tagCreate (keepTagName commit) j = .ok ∨
            (env.tagCreate (keepTagName commit) j = .locked ∧
              env.tagFound (keepTagName commit) (j + 1) = true))) ∧
    (∀ j < n, env.tagFound (keepTagName commit) 0 = false →
      (∀ i < j, env.tagCreate (keepTagName commit) i = .locked ∧
        env.tagFound (keepTagName commit) (i + 1) = false) →
      env.tagCreate (keepTagName commit) j = .otherError →
      (KeepTag env commit n wait).1 = false ∧
      countCreates (KeepTag env commit n wait).2 = j + 1) := by
  by_cases hf0 : env.tagFound (keepTagName commit) 0 = true
  · have hk : KeepTag env commit n wait = (true, [.lockShared]) := by
      simp [KeepTag, hfake, hrev, hsig, hf0]
    refine ⟨fun _ => hk, ?_, ?_, ?_, ?_⟩
    · rw [hk]; simp [countCreates]
    · intro w hw; rw [hk] at hw; simp at hw
    · rw [hk]
      exact ⟨fun _ => Or.inl hf0, fun _ => rfl⟩
    · intro j hj hcontra
      rw [hf0] at hcontra; cases hcontra
  · have hf0f : env.tagFound (keepTagName commit) 0 = false := by
      revert hf0; cases env.tagFound (keepTagName commit) 0 <;> simp
    have hk : KeepTag env commit n wait =
        ((keepTagLoop (env.tagCreate (keepTagName commit))
            (env.tagFound (keepTagName commit)) wait n 0).1,
         .lockShared :: (keepTagLoop (env.tagCreate (keepTagName commit))
            (env.tagFound (keepTagName commit)) wait n 0).2) := by
      simp [KeepTag, hfake, hrev, hsig, hf0f]
    obtain ⟨ihc, ihs, ihi, iha⟩ := keepTagLoop_spec (env.tagCreate (keepTagName commit))
      (env.tagFound (keepTagName commit)) wait n 0
    refine ⟨?_, ?_, ?_, ?_, ?_⟩
    · intro h
      exact absurd h hf0
    · rw [hk]
      rw [countCreates_lockShared_cons]
      exact ihc
    · intro w hw
      rw [hk] at hw
      simp only [List.mem_cons] at hw
      rcases hw with h | h
      · cases h
      · exact ihs w h
    · rw [hk]
      simp only
      rw [ihi]
      constructor
      · rintro ⟨j, hj, hpre, hterm⟩
        refine Or.inr ⟨j, hj, ?_, ?_⟩
        · intro i hi
          simpa using hpre i hi
        · simpa using hterm
      · rintro (h | ⟨j, hj, hpre, hterm⟩)
        · exact absurd h hf0
        · refine ⟨j, hj, ?_, ?_⟩
          · intro i hi
            simpa using hpre i hi
          · simpa using hterm
    · intro j hj _ hpre hother
      have hpre2 : ∀ i < j, env.tagCreate (keepTagName commit) (0 + i) = .locked ∧
          env.tagFound (keepTagName commit) (0 + i + 1) = false := by
        intro i hi
        simpa using hpre i hi
      have hother2 : env.tagCreate (keepTagName commit) (0 + j) = .otherError := by
        simpa using hother
      obtain ⟨hres, hcount⟩ := iha j hj hpre2 hother2
      refine ⟨by rw [hk]; exact hres, ?_⟩
      rw [hk]
      rw [countCreates_lockShared_cons]
      exact hcount

/-- Concrete KeepTag environment for the witness: first attempt Locked
with the tag still absent, second attempt succeeding. -/
def exampleKeepTagEnv : KeepTagEnv :=
  { isRepoFake := false,
    revparseOk := true,
    signatureOk := true,
    tagFound := fun _ _ => false,
    tagCreate := fun _ t => if t = 0 then .locked else .ok }

/-- Claim C4, witness: on the example environment with three tries and a
5 ms wait, KeepTag succeeds and at most three creation attempts occur. -/
theorem claim_C4_keep_tag_witness :
    (KeepTag exampleKeepTagEnv "c0ffee" 3 5).1 = true ∧
    countCreates (KeepTag exampleKeepTagEnv "c0ffee" 3 5).2 ≤ 3 := by
  have h := claim_C4_keep_tag exampleKeepTagEnv "c0ffee" 3 5 rfl rfl rfl
  refine ⟨?_, h.2.1⟩
  refine (h.2.2.2.1).mpr (Or.inr ⟨1, by omega, ?_, Or.inl (by decide)⟩)
  intro i hi
  interval_cases i
  exact ⟨by decide, by decide⟩

/-! ## StageAndCommitAllAnonymous (git_repo.cpp, lines 571-697),
GetHeadCommit (lines 808-840) and FetchFromPath (lines 842-935) -/

/-- Oracle outcomes for StageAndCommitAllAnonymous: fake flag, the
non-bare check (existence of the dot-git directory), the recursive
staging, git_index_write_tree, git_signature_new, git_tree_lookup and
git_commit_create. -/
structure StageCommitEnv where
  isRepoFake : Bool
  dotGitExists : Bool
  stagingOk : Bool
  indexWriteTreeOk : Bool
  signatureOk : Bool
  treeLookupOk : Bool
  commitCreate : Option RawId

/-- GitRepo::StageAndCommitAllAnonymous: fake handles fail before the
lock; then, under the shared lock, bare repositories fail, files are
staged, the index is written as a tree, the tree committed with an
anonymous signature; the hex commit id is returned on success. -/
def StageAndCommitAllAnonymous (env : StageCommitEnv) :
    Option String × List RepoEvent :=
  if env.isRepoFake then (none, [])
  else if !env.dotGitExists then (none, [.lockShared])
  else if !env.stagingOk then (none, [.lockShared, .stageFiles])
  else if !env.indexWriteTreeOk then (none, [.lockShared, .stageFiles])
  else if !env.signatureOk then (none, [.lockShared, .stageFiles])
  else if !env.treeLookupOk then (none, [.lockShared, .stageFiles, .treeLookup])
  else
    match env.commitCreate with
    | none => (none, [.lockShared, .stageFiles, .treeLookup])
    | some c =>
      (some (toHexString c), [.lockShared, .stageFiles, .treeLookup, .commitCreate])

/-- Oracle outcomes for GetHeadCommit: fake flag and the resolution of
HEAD to a commit id. -/
structure GetHeadEnv where
  isRepoFake : Bool
  headId : Option RawId

/-- GitRepo::GetHeadCommit: fake handles fail before the lock; then, under
the shared lock, HEAD is resolved and its hex id returned. -/
def GetHeadCommit (env : GetHeadEnv) : Option String × List RepoEvent :=
  if env.isRepoFake then (none, [])
  else
    match env.headId with
    | none => (none, [.lockShared, .headLookup])
    | some h => (some (toHexString h), [.lockShared, .headLookup])

/-- Oracle outcomes for FetchFromPath: fake flag, anonymous remote
creation, whether the caller supplied a config (else a snapshot of this
repository's config is taken, which can fail), and the fetch itself. -/
structure FetchEnv where
  isRepoFake : Bool
  remoteCreateOk : Bool
  callerCfg : Bool
  cfgSnapshotOk : Bool
  fetchOk : Bool

/-- GitRepo::FetchFromPath: fake handles fail immediately; the anonymous
remote is created; a missing caller config is replaced by a snapshot
(failure fails the call); the refspec array is the two branch refspecs
(tags first) when a branch is given and stays empty otherwise
(git_strarray zero-initialised); then the fetch runs with that array. -/
def FetchFromPath (env : FetchEnv) (branch : Option String) :
    Bool × List RepoEvent :=
  if env.isRepoFake then (false, [])
  else if !env.remoteCreateOk then (false, [.remoteCreate])
  else if !env.callerCfg && !env.cfgSnapshotOk then (false, [.remoteCreate])
  else
    let refspecs :=
      match branch with
      | some b => PopulateStrarray ["+refs/tags/" ++ b, "+refs/heads/" ++ b]
      | none => { count := 0, strings := [] }
    (env.fetchOk, [.remoteCreate, .fetch refspecs])

/-- Claim C5: on a handle whose fake flag is set, each of
StageAndCommitAllAnonymous, KeepTag, KeepTree, GetHeadCommit and
FetchFromPath fails immediately (None or false) with an empty trace: no
ODB lock acquisition and no repository-touching step happens. -/
theorem claim_C5_fake_repo_guards (e1 : StageCommitEnv) (e2 : KeepTagEnv)
    (e3 : KeepTreeEnv) (e4 : GetHeadEnv) (e5 : FetchEnv)
    (commit tree_id : String) (branch : Option String) (n wait : Nat)
    (h1 : e1.isRepoFake = true) (h2 : e2.isRepoFake = true)
    (h3 : e3.isRepoFake = true) (h4 : e4.isRepoFake = true)
    (h5 : e5.isRepoFake = true) :
    StageAndCommitAllAnonymous e1 = (none, []) ∧
    KeepTag e2 commit n wait = (false, []) ∧
    KeepTree e3 tree_id n wait = (false, []) ∧
    GetHeadCommit e4 = (none, []) ∧
    FetchFromPath e5 branch = (false, []) := by
  refine ⟨?_, ?_, ?_, ?_, ?_⟩
  · simp [StageAndCommitAllAnonymous, h1]
  · simp [KeepTag, h2]
  · simp [KeepTree, h3]
  · simp [GetHeadCommit, h4]
  · simp [FetchFromPath, h5]

/-- Claim C5, witness: concrete fake-flagged environments for the five
operations, with all other oracle outcomes successful, still fail with
empty traces. -/
theorem claim_C5_fake_repo_guards_witness :
    StageAndCommitAllAnonymous
      ⟨true, true, true, true, true, true, some [(1 : Fin 256)]⟩ = (none, []) ∧
    KeepTag ⟨true, true, true, fun _ _ => true, fun _ _ => .ok⟩ "c" 3 5 =
      (false, []) ∧
    KeepTree ⟨true, true, true, true, fun _ _ => true, fun _ _ => .ok⟩ "t" 3 5 =
      (false, []) ∧
    GetHeadCommit ⟨true, some [(1 : Fin 256)]⟩ = (none, []) ∧
    FetchFromPath ⟨true, true, true, true, true⟩ (some "main") = (false, []) :=
  claim_C5_fake_repo_guards
    ⟨true, true, true, true, true, true, some [(1 : Fin 256)]⟩
    ⟨true, true, true, fun _ _ => true, fun _ _ => .ok⟩
    ⟨true, true, true, true, fun _ _ => true, fun _ _ => .ok⟩
    ⟨true, some [(1 : Fin 256)]⟩
    ⟨true, true, true, true, true⟩
    "c" "t" (some "main") 3 5 rfl rfl rfl rfl rfl

/-- Claim C9: whenever FetchFromPath reaches the fetch, the refspec array
it passes holds exactly the two strings +refs/tags/b and +refs/heads/b in
that order (tags first, count 2) when the branch argument is some b, and
is the empty array (count 0) when the branch is unset. -/
theorem claim_C9_fetch_refspecs (env : FetchEnv) (branch : Option String) :
    (∀ b, branch = some b →
      ∀ a, RepoEvent.fetch a ∈ (FetchFromPath env branch).2 →
        a = PopulateStrarray ["+refs/tags/" ++ b, "+refs/heads/" ++ b] ∧
        a.strings = ["+refs/tags/" ++ b, "+refs/heads/" ++ b] ∧
        a.count = 2) ∧
    (branch = none →
      ∀ a, RepoEvent.fetch a ∈ (FetchFromPath env branch).2 →
        a.strings = [] ∧ a.count = 0) := by
  constructor
  · rintro b rfl a ha
    by_cases hfake : env.isRepoFake = true
    · simp [FetchFromPath, hfake] at ha
    · simp only [Bool.not_eq_true] at hfake
      by_cases hrem : env.remoteCreateOk = true
      · by_cases hcfg : (!env.callerCfg && !env.cfgSnapshotOk) = true
        · simp [FetchFromPath, hfake, hrem, hcfg] at ha
        · simp only [Bool.not_eq_true] at hcfg
          simp [FetchFromPath, hfake, hrem, hcfg] at ha
          subst ha
          exact ⟨rfl, rfl, rfl⟩
      · simp only [Bool.not_eq_true] at hrem
        simp [FetchFromPath, hfake, hrem] at ha
  · rintro rfl a ha
    by_cases hfake : env.isRepoFake = true
    · simp [FetchFromPath, hfake] at ha
    · simp only [Bool.not_eq_true] at hfake
      by_cases hrem : env.remoteCreateOk = true
      · by_cases hcfg : (!env.callerCfg && !env.cfgSnapshotOk) = true
        · simp [FetchFromPath, hfake, hrem, hcfg] at ha
        · simp only [Bool.not_eq_true] at hcfg
          simp [FetchFromPath, hfake, hrem, hcfg] at ha
          subst ha
          exact ⟨rfl, rfl⟩
      · simp only [Bool.not_eq_true] at hrem
        simp [FetchFromPath, hfake, hrem] at ha

/-- Concrete FetchFromPath environment reaching the fetch. -/
def exampleFetchEnv : FetchEnv :=
  { isRepoFake := false,
    remoteCreateOk := true,
    callerCfg := true,
    cfgSnapshotOk := true,
    fetchOk := true }

/-- Claim C9, witness: fetching branch main passes exactly the two
refspecs tags-first, and fetching with no branch passes the empty
array. -/
theorem claim_C9_fetch_refspecs_witness :
    (PopulateStrarray ["+refs/tags/main", "+refs/heads/main"]).strings =
      ["+refs/tags/main", "+refs/heads/main"] ∧
    (PopulateStrarray ["+refs/tags/main", "+refs/heads/main"]).count = 2 ∧
    ((Strarray.mk 0 []).strings = [] ∧ (Strarray.mk 0 []).count = 0) := by
  have h1 := (claim_C9_fetch_refspecs exampleFetchEnv (some "main")).1 "main" rfl
    (PopulateStrarray ["+refs/tags/main", "+refs/heads/main"]) (by decide)
  have h2 := (claim_C9_fetch_refspecs exampleFetchEnv none).2 rfl
    (Strarray.mk 0 []) (by decide)
  exact ⟨h1.2.1, h1.2.2, h2⟩

end GitRepo
